import Mathlib

/-!
Shallow embedding of the synchronization core of the book_reader repository
(src/db_populate): the catalog data model (models.py), the ingestion script
(03_populate_from_storage.py) and the drift reconciler
(05_find_mp3_lemgths_on_device.py).  Machine state that the Python code
mutates through sqlite/peewee, the filesystem and the adb transport is made
explicit: the catalog is a pair of row lists, the device is a directory list
plus a map from remote path to content digest, and every print statement is
recorded as an element of an output trace.
-/

namespace BookReader

/-- Row of the books table (models.py, class Book): surrogate id, unique
title, author. -/
structure BookRow where
  id : Nat
  title : String
  author : String
deriving DecidableEq, Repr

/-- Row of the chapters table (models.py, class Chapter): surrogate id,
foreign key bookId, title, fileName, playTime, lastPlayedPosition,
lastPlayedTimestamp, finishedPlaying (all integer columns default 0). -/
structure ChapterRow where
  id : Nat
  bookId : Nat
  title : String
  fileName : String
  playTime : Int
  lastPlayedPosition : Int
  lastPlayedTimestamp : Int
  finishedPlaying : Int
deriving DecidableEq, Repr

/-- The relational catalog: the two tables plus the autoincrement counters
that sqlite keeps for the two AutoField primary keys. -/
structure Catalog where
  books : List BookRow
  chapters : List ChapterRow
  nextBookId : Nat
  nextChapterId : Nat
deriving DecidableEq, Repr

/-- One print statement of the Python scripts, as an element of an output
trace. -/
inductive Output where
  | wouldCreateDir (path : String)
  | createdDir (path : String)
  | wouldStoreBook (title author : String)
  | storedBook (id : Nat)
  | bookExists (id : Nat)
  | wouldCopy (localPath devicePath : String)
  | localMd5Failed (p : String)
  | skippedUpload (p : String)
  | md5Mismatch (localMd5 deviceMd5 : String)
  | noRemoteMd5 (p : String)
  | pushed (localPath devicePath : String)
  | wouldStoreChapter (title fileName : String)
  | storedChapter (id : Nat)
  | updatedPlayTime (id : Nat) (oldMs newMs : Int)
  | chapterSamePlayTime (id : Nat)
  | warnNonMp3 (name : String)
  | warnCouldNotRead (name : String)
  | warnInvalidHeader (name : String)
  | processingChapter (id : Nat)
  | dryRunChapterInfo (id : Nat)
  | pulling (path : String)
  | cleanedTemp (name : String)
  | reconcileError (msg : String)
  | reconcileUpdated (id : Nat) (durMs fin : Int)
deriving DecidableEq, Repr

/-- store_book_in_db (03_populate_from_storage.py, lines 295-311).
Dry run: print and return the dummy id -1.  Otherwise peewee
Book.get_or_create keyed on title: the first row whose title matches wins
and its author is left alone; when no row matches, a fresh row with the
supplied title and author is inserted under the next autoincrement id. -/
def store_book_in_db (cat : Catalog) (title author : String) (dry_run : Bool) :
    Catalog × Int × List Output :=
  if dry_run then
    (cat, -1, [.wouldStoreBook title author])
  else
    match cat.books.find? (fun b => decide (b.title = title)) with
    | some b => (cat, (b.id : Int), [.bookExists b.id])
    | none =>
      let b : BookRow := ⟨cat.nextBookId, title, author⟩
      ({ cat with books := cat.books ++ [b], nextBookId := cat.nextBookId + 1 },
       (b.id : Int), [.storedBook b.id])

/-- store_chapter_in_db (03_populate_from_storage.py, lines 314-347).
Dry run: print only.  Otherwise peewee Chapter.get_or_create keyed on
(book, fileName); on a fresh row the defaults dictionary supplies title,
playTime and zero progress fields (finishedPlaying stays at its column
default 0); on an existing row, when the stored playTime differs from the
supplied one, the instance playTime is changed and saved back to the row
with that primary key, and when it is equal nothing is written. -/
def store_chapter_in_db (cat : Catalog) (bookId : Nat) (title fileName : String)
    (play_time : Int) (dry_run : Bool) : Catalog × List Output :=
  if dry_run then
    (cat, [.wouldStoreChapter title fileName])
  else
    match cat.chapters.find?
        (fun c => decide (c.bookId = bookId ∧ c.fileName = fileName)) with
    | none =>
      let c : ChapterRow := ⟨cat.nextChapterId, bookId, title, fileName, play_time, 0, 0, 0⟩
      ({ cat with chapters := cat.chapters ++ [c], nextChapterId := cat.nextChapterId + 1 },
       [.storedChapter c.id])
    | some c0 =>
      if c0.playTime = play_time then
        (cat, [.chapterSamePlayTime c0.id])
      else
        ({ cat with chapters :=
            cat.chapters.map (fun c => if c.id = c0.id then { c with playTime := play_time } else c) },
         [.updatedPlayTime c0.id c0.playTime play_time])

/-- Python str.endswith for a plain suffix: suffix test on the character
list. -/
def pyEndsWith (s suffix : String) : Bool :=
  suffix.toList.isSuffixOf s.toList

/-- A directory entry as the validator sees it: its name, whether the three
header bytes can be read at all, and its content bytes. -/
structure FileEntry where
  name : String
  readable : Bool
  content : List Nat
deriving DecidableEq, Repr

/-- The header test of validate_mp3_files: the first three bytes spell ID3
(0x49 0x44 0x33), or the first byte is 0xFF and the top three bits of the
second byte are set; a file shorter than two bytes fails, a two byte file
can still pass the frame sync test because read(2) returned two bytes. -/
def isValidMp3Header (content : List Nat) : Bool :=
  match content with
  | b0 :: b1 :: b2 :: _ =>
    (b0 == 0x49 && b1 == 0x44 && b2 == 0x33) || (b0 == 0xFF && b1 &&& 0xE0 == 0xE0)
  | [b0, b1] => b0 == 0xFF && b1 &&& 0xE0 == 0xE0
  | _ => false

/-- One iteration of the loop of validate_mp3_files
(03_populate_from_storage.py lines 157-181, identical in utils.py): names
not ending in .mp3 are warned about and skipped, unreadable files are
warned about and skipped, files passing the header test are collected,
the rest are warned about as invalid MP3 headers. -/
def validateStep (acc : List String × List Output) (e : FileEntry) :
    List String × List Output :=
  if ¬ pyEndsWith e.name ".mp3" then (acc.1, acc.2 ++ [.warnNonMp3 e.name])
  else if ¬ e.readable then (acc.1, acc.2 ++ [.warnCouldNotRead e.name])
  else if isValidMp3Header e.content then (acc.1 ++ [e.name], acc.2)
  else (acc.1, acc.2 ++ [.warnInvalidHeader e.name])

/-- Lexicographic comparison of character lists by code point, the order
the Python list sort of strings uses. -/
def charListLe : List Char → List Char → Bool
  | [], _ => true
  | _ :: _, [] => false
  | a :: as, b :: bs =>
    if a.toNat < b.toNat then true
    else if b.toNat < a.toNat then false
    else charListLe as bs

/-- Lexicographic string comparison by code point. -/
def stringLe (a b : String) : Bool := charListLe a.toList b.toList

/-- validate_mp3_files (03_populate_from_storage.py lines 154-184): filter
the directory entries through validateStep, then sort the accepted names
in place; returns the lexicographically sorted accepted names and the
warning trace. -/
def validate_mp3_files (entries : List FileEntry) : List String × List Output :=
  let r := entries.foldl validateStep ([], [])
  (List.insertionSort (fun a b => stringLe a b = true) r.1, r.2)

/-- Split a character list on every occurrence of a separator character,
like the Python str.split with a one character separator: n separator
occurrences give n+1 pieces, empty pieces included. -/
def splitOnChar (sep : Char) : List Char → List (List Char)
  | [] => [[]]
  | c :: rest =>
    if c = sep then [] :: splitOnChar sep rest
    else
      match splitOnChar sep rest with
      | [] => [[c]]
      | p :: ps => (c :: p) :: ps

/-- Python str.capitalize: first character upper cased, the rest lower
cased. -/
def pyCapitalize (w : List Char) : List Char :=
  match w with
  | [] => []
  | c :: rest => c.toUpper :: rest.map Char.toLower

/-- The inner capitalize_words of parse_directory_name: split on dashes,
capitalize every word, rejoin with single spaces. -/
def capitalize_words (text : List Char) : List Char :=
  List.intercalate [' '] ((splitOnChar '-' text).map pyCapitalize)

/-- The identity format failure of parse_directory_name; the source raises
ValueError, the specification names the condition InvalidIdentity. -/
inductive IdentityError where
  | invalidIdentity (segment : List Char)
deriving DecidableEq, Repr

/-- parse_directory_name (03_populate_from_storage.py lines 139-151),
applied to the final path segment: split on underscores; unless exactly two
parts result the identity is invalid; otherwise capitalize both parts into
the book title and the author name. -/
def parse_directory_name (last_segment : List Char) :
    Except IdentityError (List Char × List Char) :=
  match splitOnChar '_' last_segment with
  | [t, a] => .ok (capitalize_words t, capitalize_words a)
  | _ => .error (.invalidIdentity last_segment)

/-- The device side of the sync run: the directories created so far and a
map from remote file path to the digest of its content (a file's content is
represented by its digest, which the source uses purely for change
detection). -/
structure DeviceState where
  dirs : List String
  files : List (String × String)
deriving DecidableEq, Repr

/-- get_device_md5 (03_populate_from_storage.py lines 234-246): the digest
of the remote file, or the empty sentinel when the file is absent. -/
def get_device_md5 (files : List (String × String)) (device_path : String) : String :=
  match files.lookup device_path with
  | some d => d
  | none => ""

/-- The effect of a successful adb push: the remote file now holds the
pushed content, so its digest becomes the local digest; every other remote
file keeps its content. -/
def adbPush (files : List (String × String)) (device_path md5 : String) :
    List (String × String) :=
  (device_path, md5) :: files.filter (fun e => e.1 ≠ device_path)

/-- copy_file_to_device (03_populate_from_storage.py lines 350-376).
Dry run: print only.  Otherwise: when the local digest is the empty
sentinel, warn and push unconditionally; when the remote digest is present
and equal, skip the upload; when the remote digest is present and differs,
report the mismatch and push; when the remote digest is the empty sentinel,
report the absence and push. -/
def copy_file_to_device (files : List (String × String)) (local_md5 : String)
    (local_path device_path : String) (dry_run : Bool) :
    List (String × String) × List Output :=
  if dry_run then (files, [.wouldCopy local_path device_path])
  else
    if local_md5 = "" then
      (adbPush files device_path local_md5,
       [.localMd5Failed local_path, .pushed local_path device_path])
    else
      let device_md5 := get_device_md5 files device_path
      if device_md5 ≠ "" ∧ local_md5 = device_md5 then
        (files, [.skippedUpload local_path])
      else if device_md5 ≠ "" then
        (adbPush files device_path local_md5,
         [.md5Mismatch local_md5 device_md5, .pushed local_path device_path])
      else
        (adbPush files device_path local_md5,
         [.noRemoteMd5 device_path, .pushed local_path device_path])

/-- create_device_directory (03_populate_from_storage.py lines 204-217):
the book directory name is the title with every space removed; dry run
prints only, otherwise mkdir -p creates the directory if absent.  Returns
the device path in both modes. -/
def create_device_directory (dirs : List String) (book_title : String)
    (dry_run : Bool) : List String × String × List Output :=
  let book_dir_name := String.mk (book_title.toList.filter (fun c => c ≠ ' '))
  let device_path := "/sdcard/Audiobooks/BookReader/audio/" ++ book_dir_name
  if dry_run then (dirs, device_path, [.wouldCreateDir device_path])
  else
    ((if dirs.contains device_path then dirs else dirs ++ [device_path]),
     device_path, [.createdDir device_path])

/-- The stem of os.path.splitext on a bare file name: cut at the last dot,
unless every character before that dot is itself a dot, in which case the
whole name is the stem. -/
def splitextStem (name : String) : String :=
  let cs := name.toList
  match ((List.range cs.length).filter (fun i => cs.getD i ' ' = '.')).getLast? with
  | none => name
  | some d => if (cs.take d).any (fun c => c ≠ '.') then String.mk (cs.take d) else name

/-- A validated local MP3 file as the main loop of
03_populate_from_storage.py consumes it: its name, the digest
calculate_md5 computes for it (empty sentinel on read failure), and the
duration get_mp3_duration_in_ms reports for it. -/
structure LocalFile where
  name : String
  md5 : String
  durationMs : Int
deriving DecidableEq, Repr

/-- The whole mutable state of a sync run: the catalog database and the
device. -/
structure RunState where
  catalog : Catalog
  device : DeviceState
deriving DecidableEq, Repr

/-- The body of the per file loop of main (03_populate_from_storage.py
lines 443-451): build the local and device paths, take the chapter title
as the file name stem, copy the file to the device under the digest
comparison, then store the chapter in the catalog. -/
def processOneFile (st : RunState) (bookId : Nat) (directory_path device_book_dir : String)
    (f : LocalFile) (dry_run : Bool) : RunState × List Output :=
  let local_file_path := directory_path ++ "/" ++ f.name
  let device_file_path := device_book_dir ++ "/" ++ f.name
  let chapter_title := splitextStem f.name
  let r1 := copy_file_to_device st.device.files f.md5 local_file_path device_file_path dry_run
  let r2 := store_chapter_in_db st.catalog bookId chapter_title f.name f.durationMs dry_run
  (⟨r2.1, ⟨st.device.dirs, r1.1⟩⟩, r1.2 ++ r2.2)

/-- One iteration of the per file loop, threading the run state and
accumulating the output trace. -/
def syncLoopStep (bid : Nat) (directory_path device_book_dir : String) (dry_run : Bool)
    (acc : RunState × List Output) (f : LocalFile) : RunState × List Output :=
  ((processOneFile acc.1 bid directory_path device_book_dir f dry_run).1,
   acc.2 ++ (processOneFile acc.1 bid directory_path device_book_dir f dry_run).2)

/-- The sync run of main over one directory (03_populate_from_storage.py
lines 408-451) after the precondition checks: parse the directory name
(a failure is caught by the enclosing handler before any mutation), create
the device directory, store the book, then fold the per file loop over the
validated files in order.  In a dry run the book id is the dummy -1 and no
Book row is loaded; the dry branches of the callees never consult it, so
the loop threads the clamped id. -/
def runSync (st : RunState) (dir_segment : List Char) (directory_path : String)
    (files : List LocalFile) (dry_run : Bool) : RunState × List Output :=
  match parse_directory_name dir_segment with
  | .error _ => (st, [])
  | .ok (bt, an) =>
    let book_title := String.mk bt
    let author_name := String.mk an
    let r0 := create_device_directory st.device.dirs book_title dry_run
    let r1 := store_book_in_db st.catalog book_title author_name dry_run
    let st1 : RunState := ⟨r1.1, ⟨r0.1, st.device.files⟩⟩
    let bid : Nat := r1.2.1.toNat
    files.foldl (syncLoopStep bid directory_path r0.2.1 dry_run) (st1, r0.2.2 ++ r1.2.2)

/-- The device base audio path of settings.py. -/
def DEVICE_BASE_AUDIO_PATH : String := "/sdcard/Audiobooks/BookReader/audio"

/-- The finishedPlaying computation of process_chapter
(05_find_mp3_lemgths_on_device.py lines 118-122): one exactly when the
stored position is positive, the measured duration is positive, and the
position has reached ninety five percent of the duration. -/
def computeFinished (lastPlayedPosition duration_in_ms : Int) : Int :=
  if lastPlayedPosition > 0 ∧ duration_in_ms > 0 ∧
      (lastPlayedPosition : ℚ) ≥ (duration_in_ms : ℚ) * (95 / 100) then 1 else 0

/-- Outcome of the adb pull subprocess inside
_pull_and_get_duration_in_ms: success, a failure whose stderr reports that
the file does not exist, or any other adb failure. -/
inductive PullOutcome where
  | ok
  | notFoundOnDevice
  | adbError (msg : String)
deriving DecidableEq, Repr

/-- Outcome of reading the duration of the pulled file: a duration in
milliseconds, a corrupt MP3 header, or any other failure. -/
inductive DecodeOutcome where
  | ok (ms : Int)
  | headerNotFound
  | decodeError (msg : String)
deriving DecidableEq, Repr

/-- The environment one chapter of the reconciler runs against: how its
pull ends and, if pulled, how its decode ends. -/
structure ChapterEnv where
  pull : PullOutcome
  decode : DecodeOutcome
deriving DecidableEq, Repr

/-- The local scratch filesystem of the reconciler: the temporary files
currently existing. -/
structure FSState where
  tempFiles : List String
deriving DecidableEq, Repr

/-- _pull_and_get_duration_in_ms (05_find_mp3_lemgths_on_device.py lines
24-74): mkstemp creates the temporary file, the try body pulls and
decodes, every except clause turns the failure into an error message, and
the finally clause removes the temporary file before the function returns,
on the success path and on both failure paths alike. -/
def pull_and_get_duration_in_ms (fs : FSState) (device_path temp_mp3_path : String)
    (env : ChapterEnv) : FSState × Option Int × Option String :=
  let fs1 : FSState := ⟨fs.tempFiles ++ [temp_mp3_path]⟩
  let result : Option Int × Option String :=
    match env.pull with
    | .ok =>
      match env.decode with
      | .ok ms => (some ms, none)
      | .headerNotFound => (none, some "File is not a valid MP3 file or metadata is corrupt.")
      | .decodeError m => (none, some m)
    | .notFoundOnDevice => (none, some ("File not found on device at " ++ device_path ++ "."))
    | .adbError m => (none, some ("ADB Error: " ++ m))
  (⟨fs1.tempFiles.filter (fun t => t ≠ temp_mp3_path)⟩, result)

/-- process_chapter (05_find_mp3_lemgths_on_device.py lines 77-136):
report the chapter, stop after reporting in a dry run; otherwise pull and
measure; on any reported error return with the catalog untouched; on
success update exactly the playTime and finishedPlaying columns of the row
with this chapter id. -/
def process_chapter (chapters : List ChapterRow) (fs : FSState) (c : ChapterRow)
    (book_title temp_mp3_path : String) (env : ChapterEnv) (is_dry_run : Bool) :
    List ChapterRow × FSState × List Output :=
  let book_dir_name := String.mk (book_title.toList.filter (fun ch => ch ≠ ' '))
  let device_path := DEVICE_BASE_AUDIO_PATH ++ "/" ++ book_dir_name ++ "/" ++ c.fileName
  if is_dry_run then (chapters, fs, [.processingChapter c.id, .dryRunChapterInfo c.id])
  else
    let r := pull_and_get_duration_in_ms fs device_path temp_mp3_path env
    match r.2.2 with
    | some m => (chapters, r.1, [.processingChapter c.id, .reconcileError m])
    | none =>
      match r.2.1 with
      | none => (chapters, r.1,
          [.processingChapter c.id, .reconcileError "Duration could not be calculated."])
      | some duration_in_ms =>
        let fin := computeFinished c.lastPlayedPosition duration_in_ms
        (chapters.map (fun c2 => if c2.id = c.id then
            { c2 with playTime := duration_in_ms, finishedPlaying := fin } else c2),
         r.1, [.processingChapter c.id, .reconcileUpdated c.id duration_in_ms fin])

/-- One iteration of the reconciler loop: process one chapter against the
threaded catalog and scratch filesystem and extend the output trace; the
per chapter environment assigns each chapter its pull and decode outcome
and its temporary file name, and the book title of the owning book row is
looked up by book id. -/
def reconcilerStep (bookTitleOf tempNameOf : Nat → String) (envOf : Nat → ChapterEnv)
    (is_dry_run : Bool) (acc : List ChapterRow × FSState × List Output) (c : ChapterRow) :
    List ChapterRow × FSState × List Output :=
  ((process_chapter acc.1 acc.2.1 c (bookTitleOf c.bookId) (tempNameOf c.id)
      (envOf c.id) is_dry_run).1,
   (process_chapter acc.1 acc.2.1 c (bookTitleOf c.bookId) (tempNameOf c.id)
      (envOf c.id) is_dry_run).2.1,
   acc.2.2 ++ (process_chapter acc.1 acc.2.1 c (bookTitleOf c.bookId) (tempNameOf c.id)
      (envOf c.id) is_dry_run).2.2)

/-- The main processing loop of the reconciler
(05_find_mp3_lemgths_on_device.py lines 174-184): fold the per chapter
step over the selected chapter rows, threading the catalog, the scratch
filesystem and the output trace. -/
def reconcilerRun (chapters : List ChapterRow) (bookTitleOf : Nat → String)
    (tempNameOf : Nat → String) (envOf : Nat → ChapterEnv) (is_dry_run : Bool) :
    List ChapterRow × FSState × List Output :=
  chapters.foldl (reconcilerStep bookTitleOf tempNameOf envOf is_dry_run)
    (chapters, ⟨[]⟩, [])

/-- Recognizer for the adb push record in an output trace. -/
def Output.isPushed : Output → Bool
  | .pushed _ _ => true
  | _ => false

/-- Recognizer for the dry run copy plan record in an output trace. -/
def Output.isWouldCopy : Output → Bool
  | .wouldCopy _ _ => true
  | _ => false

/-- Recognizer for the dry run chapter store plan record in an output
trace. -/
def Output.isWouldStoreChapter : Output → Bool
  | .wouldStoreChapter _ _ => true
  | _ => false

/-- Recognizer for the per chapter processing header the reconciler prints
for every chapter it visits. -/
def Output.isProcessing : Output → Bool
  | .processingChapter _ => true
  | _ => false

/-- Whether an output trace records at least one adb push. -/
def didPush (outs : List Output) : Bool := outs.any Output.isPushed

/-- The columns of a chapter row other than playTime, the only column the
ingestion update path may write. -/
def chapterSyncFrame (c : ChapterRow) :
    Nat × Nat × String × String × Int × Int × Int :=
  (c.id, c.bookId, c.title, c.fileName,
   c.lastPlayedPosition, c.lastPlayedTimestamp, c.finishedPlaying)

/-- The columns of a chapter row other than playTime and finishedPlaying,
the only columns the reconciler update may write. -/
def chapterReconFrame (c : ChapterRow) :
    Nat × Nat × String × String × Int × Int :=
  (c.id, c.bookId, c.title, c.fileName,
   c.lastPlayedPosition, c.lastPlayedTimestamp)

/-- The digest of the pushed path after an adb push is the pushed
digest. -/
theorem get_device_md5_adbPush (files : List (String × String)) (p d : String) :
    get_device_md5 (adbPush files p d) p = d := by
  simp [get_device_md5, adbPush, List.lookup]

/-- C1: for every file considered by the transfer step of the sync engine,
an empty local digest forces an unconditional push; otherwise an empty
remote digest forces a push; otherwise equal digests skip the push and
leave the device untouched; otherwise the file is pushed and the remote
copy is overwritten with the local content. -/
theorem transfer_decision_cascade (files : List (String × String))
    (local_md5 local_path device_path : String) :
    (local_md5 = "" →
      didPush (copy_file_to_device files local_md5 local_path device_path false).2 = true) ∧
    (local_md5 ≠ "" → get_device_md5 files device_path = "" →
      didPush (copy_file_to_device files local_md5 local_path device_path false).2 = true) ∧
    (local_md5 ≠ "" → get_device_md5 files device_path ≠ "" →
      local_md5 = get_device_md5 files device_path →
      didPush (copy_file_to_device files local_md5 local_path device_path false).2 = false ∧
      (copy_file_to_device files local_md5 local_path device_path false).1 = files) ∧
    (local_md5 ≠ "" → get_device_md5 files device_path ≠ "" →
      local_md5 ≠ get_device_md5 files device_path →
      didPush (copy_file_to_device files local_md5 local_path device_path false).2 = true ∧
      get_device_md5 (copy_file_to_device files local_md5 local_path device_path false).1
        device_path = local_md5) := by
  refine ⟨fun h1 => ?_, fun h1 h2 => ?_, fun h1 h2 h3 => ?_, fun h1 h2 h3 => ?_⟩
  · simp [copy_file_to_device, h1, didPush, Output.isPushed]
  · simp [copy_file_to_device, h1, h2, didPush, Output.isPushed]
  · have hne : ¬ (local_md5 = "") := h1
    simp [copy_file_to_device, hne, h2, h3, didPush, Output.isPushed]
  · have hne : ¬ (local_md5 = "") := h1
    simp [copy_file_to_device, hne, h2, h3, didPush, Output.isPushed,
      get_device_md5_adbPush]

/-- Witness for C1 at concrete inputs: a device already holding digest h1
at path d skips the push when the local digest is h1. -/
theorem transfer_decision_cascade_witness :
    didPush (copy_file_to_device [("d", "h1")] "h1" "l" "d" false).2 = false ∧
    (copy_file_to_device [("d", "h1")] "h1" "l" "d" false).1 = [("d", "h1")] :=
  (transfer_decision_cascade [("d", "h1")] "h1" "l" "d").2.2.1
    (by decide) (by decide) (by decide)

/-- C2: store_book_in_db is get or create keyed on title only: a second
invocation with the same title changes nothing and returns the id the
first one returned; after the first invocation exactly one matching row
exists whenever none or one existed before; and when a row with the title
already exists the whole catalog, its stored author included, is left
untouched even under a different supplied author. -/
theorem upsert_book_get_or_create (cat : Catalog) (title a1 a2 : String) :
    (store_book_in_db (store_book_in_db cat title a1 false).1 title a2 false).1
      = (store_book_in_db cat title a1 false).1 ∧
    (store_book_in_db (store_book_in_db cat title a1 false).1 title a2 false).2.1
      = (store_book_in_db cat title a1 false).2.1 ∧
    (store_book_in_db cat title a1 false).1.books.countP
        (fun b => decide (b.title = title))
      = max (cat.books.countP (fun b => decide (b.title = title))) 1 ∧
    (∀ b ∈ cat.books, b.title = title → (store_book_in_db cat title a1 false).1 = cat) := by
  rcases hf : cat.books.find? (fun b => decide (b.title = title)) with _ | b0
  · have hnone : ∀ b ∈ cat.books, ¬ b.title = title := by
      intro b hb
      have := List.find?_eq_none.mp hf b hb
      simpa using this
    have hcount0 : cat.books.countP (fun b => decide (b.title = title)) = 0 :=
      List.countP_eq_zero.mpr (by intro b hb; simpa using hnone b hb)
    have hfind2 :
        (cat.books ++ [(⟨cat.nextBookId, title, a1⟩ : BookRow)]).find?
            (fun b => decide (b.title = title))
          = some (⟨cat.nextBookId, title, a1⟩ : BookRow) := by
      rw [List.find?_append, hf]
      simp
    refine ⟨?_, ?_, ?_, ?_⟩
    · simp [store_book_in_db, hf, hfind2]
    · simp [store_book_in_db, hf, hfind2]
    · simp [store_book_in_db, hf, List.countP_append, hcount0]
    · intro b hb hbt
      exact absurd hbt (hnone b hb)
  · have hmem : b0 ∈ cat.books := List.mem_of_find?_eq_some hf
    have hbt : b0.title = title := by
      have := List.find?_some hf
      simpa using this
    have hpos : 0 < cat.books.countP (fun b => decide (b.title = title)) :=
      List.countP_pos_iff.mpr ⟨b0, hmem, by simpa using hbt⟩
    refine ⟨?_, ?_, ?_, ?_⟩
    · simp [store_book_in_db, hf]
    · simp [store_book_in_db, hf]
    · simp [store_book_in_db, hf, Nat.max_eq_left hpos]
    · intro b hb _
      simp [store_book_in_db, hf]

/-- Witness for C2 at a concrete catalog: upserting title T a second time
with a different author leaves the single row with author A in place. -/
theorem upsert_book_get_or_create_witness :
    (store_book_in_db ⟨[⟨1, "T", "A"⟩], [], 2, 1⟩ "T" "B" false).1
      = ⟨[⟨1, "T", "A"⟩], [], 2, 1⟩ :=
  (upsert_book_get_or_create ⟨[⟨1, "T", "A"⟩], [], 2, 1⟩ "T" "B" "C").2.2.2
    ⟨1, "T", "A"⟩ (by decide) (by decide)

/-- C3: store_chapter_in_db on an existing (book, fileName) row with equal
playTime writes nothing; with a different playTime it changes only the
playTime column, preserving every other column of every chapter row, the
row count and the books table, and setting the found row to the supplied
value; on a fresh (book, fileName) it appends one row carrying the
supplied fields with all three progress columns zero. -/
theorem upsert_chapter_frame (cat : Catalog) (bookId : Nat)
    (title fileName : String) (pt : Int) :
    (∀ c0, cat.chapters.find?
        (fun c => decide (c.bookId = bookId ∧ c.fileName = fileName)) = some c0 →
      ((c0.playTime = pt →
        (store_chapter_in_db cat bookId title fileName pt false).1 = cat) ∧
       (c0.playTime ≠ pt →
        (store_chapter_in_db cat bookId title fileName pt false).1.books = cat.books ∧
        (store_chapter_in_db cat bookId title fileName pt false).1.chapters.map
            chapterSyncFrame = cat.chapters.map chapterSyncFrame ∧
        (store_chapter_in_db cat bookId title fileName pt false).1.chapters.length
          = cat.chapters.length ∧
        (∀ c ∈ (store_chapter_in_db cat bookId title fileName pt false).1.chapters,
          c.id = c0.id → c.playTime = pt)))) ∧
    (cat.chapters.find?
        (fun c => decide (c.bookId = bookId ∧ c.fileName = fileName)) = none →
      (store_chapter_in_db cat bookId title fileName pt false).1.chapters
        = cat.chapters ++ [⟨cat.nextChapterId, bookId, title, fileName, pt, 0, 0, 0⟩]) := by
  constructor
  · intro c0 hf
    simp only [Bool.decide_and] at hf
    constructor
    · intro heq
      simp [store_chapter_in_db, hf, heq]
    · intro hne
      have hmap :
          (store_chapter_in_db cat bookId title fileName pt false).1.chapters
            = cat.chapters.map
                (fun c => if c.id = c0.id then { c with playTime := pt } else c) := by
        simp [store_chapter_in_db, hf, hne]
      refine ⟨by simp [store_chapter_in_db, hf, hne], ?_, ?_, ?_⟩
      · rw [hmap, List.map_map]
        apply List.map_congr_left
        intro c _
        by_cases hc : c.id = c0.id <;> simp [chapterSyncFrame, hc]
      · rw [hmap, List.length_map]
      · intro c hc hcid
        rw [hmap] at hc
        rcases List.mem_map.mp hc with ⟨c1, _, hc1⟩
        by_cases h1 : c1.id = c0.id
        · rw [if_pos h1] at hc1
          rw [← hc1]
        · rw [if_neg h1] at hc1
          subst hc1
          exact absurd hcid h1
  · intro hf
    simp only [Bool.decide_and] at hf
    simp [store_chapter_in_db, hf]

/-- Witness for C3 at a concrete catalog: updating the playTime of the one
existing chapter row from 3 to 5 leaves every other column as it was. -/
theorem upsert_chapter_frame_witness :
    (store_chapter_in_db ⟨[⟨1, "T", "A"⟩], [⟨1, 1, "c1", "01.mp3", 3, 7, 9, 0⟩], 2, 2⟩
        1 "c1" "01.mp3" 5 false).1.chapters.map chapterSyncFrame
      = [⟨1, 1, "c1", "01.mp3", 7, 9, 0⟩] :=
  (((upsert_chapter_frame
      ⟨[⟨1, "T", "A"⟩], [⟨1, 1, "c1", "01.mp3", 3, 7, 9, 0⟩], 2, 2⟩
      1 "c1" "01.mp3" 5).1
    ⟨1, 1, "c1", "01.mp3", 3, 7, 9, 0⟩ (by decide)).2 (by decide)).2.1.trans rfl

/-- C4 (amended): for every chapter the drift reconciler processes with an
obtainable duration, finishedPlaying is set to 1 exactly when the stored
position is positive, the duration is positive, and the position has
reached ninety five percent of the duration; a successful process_chapter
run writes exactly that value into the processed row; and on the quoted
example inputs a position of 579000 out of 600000 is finished, 500000 is
not, and a duration of 0 with position 0 is not. -/
theorem reconciler_finished_rule :
    (∀ pos dur : Int, computeFinished pos dur = 1 ↔
      (pos > 0 ∧ dur > 0 ∧ (pos : ℚ) ≥ (dur : ℚ) * (95 / 100))) ∧
    (∀ chapters fs c bt tn (d : Int),
      (process_chapter chapters fs c bt tn ⟨.ok, .ok d⟩ false).1.map
          (fun c2 => c2.finishedPlaying)
        = chapters.map (fun c2 =>
            if c2.id = c.id then computeFinished c.lastPlayedPosition d
            else c2.finishedPlaying)) ∧
    computeFinished 579000 600000 = 1 ∧
    computeFinished 500000 600000 = 0 ∧
    computeFinished 0 0 = 0 := by
  have h1 : computeFinished 579000 600000 = 1 := by
    unfold computeFinished
    rw [if_pos]
    exact ⟨by norm_num, by norm_num, by norm_num⟩
  have h2 : computeFinished 500000 600000 = 0 := by
    unfold computeFinished
    rw [if_neg]
    intro h
    have := h.2.2
    norm_num at this
  have h3 : computeFinished 0 0 = 0 := by
    unfold computeFinished
    rw [if_neg]
    intro h
    exact absurd h.1 (by norm_num)
  refine ⟨?_, ?_, h1, h2, h3⟩
  · intro pos dur
    by_cases hp : pos > 0 ∧ dur > 0 ∧ (pos : ℚ) ≥ (dur : ℚ) * (95 / 100)
    · simp [computeFinished, hp]
    · simp [computeFinished, hp]
  · intro chapters fs c bt tn d
    simp only [process_chapter, pull_and_get_duration_in_ms, if_neg Bool.false_ne_true,
      List.map_map]
    apply List.map_congr_left
    intro c2 _
    by_cases hc : c2.id = c.id <;> simp [hc]

/-- Counterexample to C4 as stated: a chapter whose stored position is 1
while the device copy decodes to duration 0 satisfies the claimed
condition (position at least ninety five percent of duration, position
positive), yet the reconciler writes finishedPlaying 0, because the source
additionally requires a positive duration. -/
theorem reconciler_finished_rule_cex :
    ((1 : Int) > 0 ∧ (1 : ℚ) ≥ (0 : ℚ) * (95 / 100)) ∧
    (process_chapter [⟨1, 1, "t", "f.mp3", 0, 1, 0, 0⟩] ⟨[]⟩
        ⟨1, 1, "t", "f.mp3", 0, 1, 0, 0⟩ "B" "tmp" ⟨.ok, .ok 0⟩ false).1.map
        (fun c2 => c2.finishedPlaying)
      = [0] ∧
    ¬ ((process_chapter [⟨1, 1, "t", "f.mp3", 0, 1, 0, 0⟩] ⟨[]⟩
        ⟨1, 1, "t", "f.mp3", 0, 1, 0, 0⟩ "B" "tmp" ⟨.ok, .ok 0⟩ false).1.map
        (fun c2 => c2.finishedPlaying)
      = [1]) := by
  have hcf : computeFinished 1 0 = 0 := by
    unfold computeFinished
    rw [if_neg]
    intro h
    exact absurd h.2.1 (by norm_num)
  have hmap : (process_chapter [⟨1, 1, "t", "f.mp3", 0, 1, 0, 0⟩] ⟨[]⟩
      ⟨1, 1, "t", "f.mp3", 0, 1, 0, 0⟩ "B" "tmp" ⟨.ok, .ok 0⟩ false).1.map
      (fun c2 => c2.finishedPlaying) = [0] := by
    simp [process_chapter, pull_and_get_duration_in_ms, hcf]
  refine ⟨⟨by norm_num, by norm_num⟩, hmap, ?_⟩
  rw [hmap]
  simp

/-- Splitting never yields the empty list of pieces. -/
theorem splitOnChar_ne_nil (sep : Char) (l : List Char) : splitOnChar sep l ≠ [] := by
  induction l with
  | nil => simp [splitOnChar]
  | cons c rest ih =>
    by_cases h : c = sep
    · simp [splitOnChar, h]
    · cases hr : splitOnChar sep rest <;> simp [splitOnChar, h, hr]

/-- Splitting on a separator yields one piece more than the number of
separator occurrences. -/
theorem splitOnChar_length (sep : Char) (l : List Char) :
    (splitOnChar sep l).length = l.count sep + 1 := by
  induction l with
  | nil => simp [splitOnChar]
  | cons c rest ih =>
    by_cases h : c = sep
    · simp [splitOnChar, h, List.count_cons, ih]
    · rcases hr : splitOnChar sep rest with _ | ⟨p, ps⟩
      · exact absurd hr (splitOnChar_ne_nil sep rest)
      · rw [hr] at ih
        have hbe : ¬ sep = c := fun hs => h hs.symm
        simp [splitOnChar, h, hr, List.count_cons, hbe] at ih ⊢
        omega

/-- A separator free list splits into itself alone. -/
theorem splitOnChar_no_sep (sep : Char) (t : List Char) (h : sep ∉ t) :
    splitOnChar sep t = [t] := by
  induction t with
  | nil => simp [splitOnChar]
  | cons c rest ih =>
    have hc : ¬ c = sep := fun hcs => h (hcs ▸ List.mem_cons_self c rest)
    have hrest : sep ∉ rest := fun hm => h (List.mem_cons_of_mem c hm)
    simp [splitOnChar, hc, ih hrest]

/-- Splitting a list built around one separator occurrence peels off the
separator free part before it. -/
theorem splitOnChar_append (sep : Char) (t a : List Char) (h : sep ∉ t) :
    splitOnChar sep (t ++ sep :: a) = t :: splitOnChar sep a := by
  induction t with
  | nil => simp [splitOnChar]
  | cons c rest ih =>
    have hc : ¬ c = sep := fun hcs => h (hcs ▸ List.mem_cons_self c rest)
    have hrest : sep ∉ rest := fun hm => h (List.mem_cons_of_mem c hm)
    simp [splitOnChar, hc, ih hrest]

/-- C5: on a final path segment made of an underscore free part, one
underscore, and another underscore free part, the identity parser
succeeds, splitting there and producing the capitalized dash joined words
of each part; on any segment whose underscore count is not one, that is,
any segment that does not split into exactly two parts, it fails with the
invalid identity error. -/
theorem identity_parser_contract :
    (∀ t a : List Char, '_' ∉ t → '_' ∉ a →
      parse_directory_name (t ++ '_' :: a)
        = .ok (capitalize_words t, capitalize_words a)) ∧
    (∀ seg : List Char, seg.count '_' ≠ 1 →
      parse_directory_name seg = .error (.invalidIdentity seg)) := by
  constructor
  · intro t a ht ha
    have h1 : splitOnChar '_' (t ++ '_' :: a) = [t, a] := by
      rw [splitOnChar_append _ _ _ ht, splitOnChar_no_sep _ _ ha]
    simp [parse_directory_name, h1]
  · intro seg hc
    have hlen : (splitOnChar '_' seg).length ≠ 2 := by
      rw [splitOnChar_length]
      omega
    rcases hs : splitOnChar '_' seg with _ | ⟨x, _ | ⟨y, _ | ⟨z, rest⟩⟩⟩
    · simp [parse_directory_name, hs]
    · simp [parse_directory_name, hs]
    · exact absurd (by simp [hs] : (splitOnChar '_' seg).length = 2) hlen
    · simp [parse_directory_name, hs]

/-- Witness for C5 at concrete inputs: the directory segment
war-and-peace_leo-tolstoy parses into the capitalized title and author. -/
theorem identity_parser_contract_witness :
    parse_directory_name ("war-and-peace".toList ++ '_' :: "leo-tolstoy".toList)
      = .ok (capitalize_words "war-and-peace".toList,
             capitalize_words "leo-tolstoy".toList) ∧
    parse_directory_name "warandpeace".toList
      = .error (.invalidIdentity "warandpeace".toList) :=
  ⟨identity_parser_contract.1 "war-and-peace".toList "leo-tolstoy".toList
      (by decide) (by decide),
   identity_parser_contract.2 "warandpeace".toList (by decide)⟩

/-- The lexicographic comparison is total. -/
theorem charListLe_total : ∀ a b : List Char,
    charListLe a b = true ∨ charListLe b a = true := by
  intro a
  induction a with
  | nil => intro b; left; rfl
  | cons x xs ih =>
    intro b
    cases b with
    | nil => right; rfl
    | cons y ys =>
      by_cases h1 : x.toNat < y.toNat
      · left; simp [charListLe, h1]
      · by_cases h2 : y.toNat < x.toNat
        · right; simp [charListLe, h2]
        · rcases ih ys with h | h
          · left; simp [charListLe, h1, h2, h]
          · right; simp [charListLe, h1, h2, h]

/-- The lexicographic comparison is transitive. -/
theorem charListLe_trans : ∀ a b c : List Char,
    charListLe a b = true → charListLe b c = true → charListLe a c = true := by
  intro a
  induction a with
  | nil => intro b c _ _; rfl
  | cons x xs ih =>
    intro b c hab hbc
    cases b with
    | nil => simp [charListLe] at hab
    | cons y ys =>
      cases c with
      | nil => simp [charListLe] at hbc
      | cons z zs =>
        simp only [charListLe] at hab hbc ⊢
        by_cases hxy : x.toNat < y.toNat
        · by_cases hyz : y.toNat < z.toNat
          · simp [Nat.lt_trans hxy hyz]
          · rw [if_neg hyz] at hbc
            by_cases hzy : z.toNat < y.toNat
            · rw [if_pos hzy] at hbc
              exact absurd hbc (by simp)
            · have hxz : x.toNat < z.toNat := by omega
              simp [hxz]
        · rw [if_neg hxy] at hab
          by_cases hyx : y.toNat < x.toNat
          · rw [if_pos hyx] at hab
            exact absurd hab (by simp)
          · rw [if_neg hyx] at hab
            by_cases hyz : y.toNat < z.toNat
            · have hxz : x.toNat < z.toNat := by omega
              simp [hxz]
            · rw [if_neg hyz] at hbc
              by_cases hzy : z.toNat < y.toNat
              · rw [if_pos hzy] at hbc
                exact absurd hbc (by simp)
              · rw [if_neg hzy] at hbc
                have hxz : ¬ x.toNat < z.toNat := by omega
                have hzx : ¬ z.toNat < x.toNat := by omega
                simp only [if_neg hxz, if_neg hzx]
                exact ih ys zs hab hbc

instance : IsTotal String (fun a b => stringLe a b = true) :=
  ⟨fun a b => charListLe_total a.toList b.toList⟩

instance : IsTrans String (fun a b => stringLe a b = true) :=
  ⟨fun a b c => charListLe_trans a.toList b.toList c.toList⟩

/-- C6: the accepted name sequence of the content validator is sorted
lexicographically for every input directory; and on a concrete directory a
file opening with the ID3 bytes and a file opening with FF FB are
accepted, while a file opening with arbitrary text bytes is rejected with
a warning and no failure, the run returning normally with the other two
files sorted by name. -/
theorem content_validator_contract :
    (∀ entries, List.Sorted (fun a b => stringLe a b = true)
      (validate_mp3_files entries).1) ∧
    validate_mp3_files
      [⟨"b.mp3", true, [0xFF, 0xFB, 0x90]⟩,
       ⟨"c.mp3", true, [104, 101, 108, 108, 111]⟩,
       ⟨"a.mp3", true, [0x49, 0x44, 0x33, 4]⟩]
      = (["a.mp3", "b.mp3"], [.warnInvalidHeader "c.mp3"]) :=
  ⟨fun _ => List.sorted_insertionSort _ _, by decide⟩

/-- Every name the validator fold has accepted ends in the lower case
suffix .mp3, provided every previously accepted name does. -/
theorem validateStep_fold_suffix :
    ∀ (entries : List FileEntry) (acc : List String × List Output),
      (∀ n ∈ acc.1, pyEndsWith n ".mp3" = true) →
      ∀ n ∈ (entries.foldl validateStep acc).1, pyEndsWith n ".mp3" = true := by
  intro entries
  induction entries with
  | nil => intro acc hacc; simpa using hacc
  | cons e rest ih =>
    intro acc hacc
    apply ih
    intro n hn
    unfold validateStep at hn
    split_ifs at hn with h1 h2 h3
    · have hn2 : n ∈ acc.1 ++ [e.name] := hn
      rcases List.mem_append.mp hn2 with h | h
      · exact hacc n h
      · have hne : n = e.name := by simpa using h
        subst hne
        exact h1
    · exact hacc n hn
    · exact hacc n hn
    · exact hacc n hn

/-- C9 (amended): the extension check of the content validator is case
sensitive, not case insensitive: every name it accepts ends in the lower
case suffix .mp3, and an entry whose name ends in upper case .MP3 is
warned about as a non MP3 file without reaching the magic byte check. -/
theorem validator_extension_case_sensitive :
    ∀ entries, ∀ n ∈ (validate_mp3_files entries).1, pyEndsWith n ".mp3" = true := by
  intro entries n hn
  simp only [validate_mp3_files] at hn
  have hperm := List.perm_insertionSort (fun a b => stringLe a b = true)
    ((entries.foldl validateStep ([], [])).1)
  exact validateStep_fold_suffix entries ([], []) (by simp) n (hperm.mem_iff.mp hn)

/-- Witness for C9 at a concrete directory: the one accepted name ends in
the lower case suffix. -/
theorem validator_extension_case_sensitive_witness :
    pyEndsWith "a.mp3" ".mp3" = true :=
  validator_extension_case_sensitive
    [⟨"a.mp3", true, [0x49, 0x44, 0x33]⟩] "a.mp3" (by decide)

/-- Counterexample to C9 as stated: an entry named 01.MP3 whose content
opens with the genuine ID3 magic bytes is not treated as an audio
candidate; the case sensitive extension check rejects it as a non MP3
file before any content inspection. -/
theorem validator_extension_case_sensitive_cex :
    validate_mp3_files [⟨"01.MP3", true, [0x49, 0x44, 0x33]⟩]
      = ([], [.warnNonMp3 "01.MP3"]) ∧
    ¬ ("01.MP3" ∈ (validate_mp3_files [⟨"01.MP3", true, [0x49, 0x44, 0x33]⟩]).1) := by
  refine ⟨by decide, by decide⟩

/-- The two planned actions the dry run prints for one validated file: the
copy it would perform and the chapter store it would perform. -/
def dryPlan (directory_path device_book_dir : String) (f : LocalFile) : List Output :=
  [.wouldCopy (directory_path ++ "/" ++ f.name) (device_book_dir ++ "/" ++ f.name),
   .wouldStoreChapter (splitextStem f.name) f.name]

/-- In dry run mode one loop iteration changes nothing and emits exactly
the two planned actions for its file. -/
theorem processOneFile_dry (st : RunState) (bid : Nat) (dp dbd : String) (f : LocalFile) :
    processOneFile st bid dp dbd f true = (st, dryPlan dp dbd f) := by
  simp [processOneFile, copy_file_to_device, store_chapter_in_db, dryPlan]

/-- The dry run loop leaves the state untouched and appends the planned
actions of every file in order. -/
theorem dry_fold_spec (bid : Nat) (dp dbd : String) :
    ∀ (files : List LocalFile) (st1 : RunState) (outs : List Output),
      (files.foldl (syncLoopStep bid dp dbd true) (st1, outs))
        = (st1, outs ++ (files.map (dryPlan dp dbd)).flatten) := by
  intro files
  induction files with
  | nil => intro st1 outs; simp
  | cons f rest ih =>
    intro st1 outs
    have hstep : syncLoopStep bid dp dbd true (st1, outs) f
        = (st1, outs ++ dryPlan dp dbd f) := by
      simp [syncLoopStep, processOneFile_dry]
    rw [List.foldl_cons, hstep, ih]
    simp [List.append_assoc]

/-- Counting over the flattened per file plans multiplies the per plan
count by the number of files. -/
theorem countP_flatten_const (p : Output → Bool) (g : LocalFile → List Output) (k : Nat)
    (hg : ∀ f, (g f).countP p = k) :
    ∀ files : List LocalFile, ((files.map g).flatten.countP p) = files.length * k := by
  intro files
  induction files with
  | nil => simp
  | cons f rest ih =>
    simp only [List.map_cons, List.flatten_cons, List.countP_append, hg, ih,
      List.length_cons]
    ring

/-- C7: a dry run of the sync engine over any input collection leaves the
whole state, catalog rows and device content alike, exactly as it was and
records no push; and whenever the directory identity parses, the dry run
prints one planned copy and one planned chapter store for each validated
file. -/
theorem dry_run_no_mutation :
    (∀ st dir_segment directory_path files,
      (runSync st dir_segment directory_path files true).1 = st ∧
      ((runSync st dir_segment directory_path files true).2.countP Output.isPushed) = 0) ∧
    (∀ st dir_segment directory_path files bt an,
      parse_directory_name dir_segment = .ok (bt, an) →
      ((runSync st dir_segment directory_path files true).2.countP Output.isWouldCopy)
        = files.length ∧
      ((runSync st dir_segment directory_path files true).2.countP
          Output.isWouldStoreChapter)
        = files.length) := by
  have hrun : ∀ (st : RunState) dir_segment directory_path files bt an,
      parse_directory_name dir_segment = .ok (bt, an) →
      runSync st dir_segment directory_path files true
        = (st,
           Output.wouldCreateDir ("/sdcard/Audiobooks/BookReader/audio/" ++
             String.mk ((String.mk bt).toList.filter (fun c => c ≠ ' ')))
           :: Output.wouldStoreBook (String.mk bt) (String.mk an)
           :: (files.map (dryPlan directory_path
                ("/sdcard/Audiobooks/BookReader/audio/" ++
                  String.mk ((String.mk bt).toList.filter (fun c => c ≠ ' '))))).flatten) := by
    intro st dir_segment directory_path files bt an hp
    simp only [runSync, hp, create_device_directory, store_book_in_db, if_pos,
      ite_true, dry_fold_spec]
    rfl
  constructor
  · intro st dir_segment directory_path files
    rcases hp : parse_directory_name dir_segment with e | ⟨bt, an⟩
    · simp [runSync, hp]
    · rw [hrun st dir_segment directory_path files bt an hp]
      refine ⟨rfl, ?_⟩
      simp only [List.countP_cons, Output.isPushed]
      rw [countP_flatten_const Output.isPushed _ 0
        (fun f => by simp [dryPlan, Output.isPushed]) files]
      simp
  · intro st dir_segment directory_path files bt an hp
    rw [hrun st dir_segment directory_path files bt an hp]
    constructor
    · simp only [List.countP_cons, Output.isWouldCopy]
      rw [countP_flatten_const Output.isWouldCopy _ 1
        (fun f => by simp [dryPlan, Output.isWouldCopy, List.countP_cons])
        files]
      simp
    · simp only [List.countP_cons, Output.isWouldStoreChapter]
      rw [countP_flatten_const Output.isWouldStoreChapter _ 1
        (fun f => by simp [dryPlan, Output.isWouldStoreChapter, List.countP_cons])
        files]
      simp

/-- Witness for C7 at a concrete run: a dry run over two validated files
prints exactly two planned copies and two planned chapter stores. -/
theorem dry_run_no_mutation_witness :
    ((runSync ⟨⟨[], [], 1, 1⟩, ⟨[], []⟩⟩ "a-b_c".toList "/x"
        [⟨"01.mp3", "h1", 5000⟩, ⟨"02.mp3", "h2", 6000⟩] true).2.countP
      Output.isWouldCopy) = 2 :=
  (dry_run_no_mutation.2 ⟨⟨[], [], 1, 1⟩, ⟨[], []⟩⟩ "a-b_c".toList "/x"
    [⟨"01.mp3", "h1", 5000⟩, ⟨"02.mp3", "h2", 6000⟩]
    "A B".toList "C".toList (by rfl)).1

/-- Every branch of process_chapter, the dry branch, both failure
branches and the success branch, emits exactly one per chapter processing
header. -/
theorem process_chapter_processing_count (db : List ChapterRow) (fs : FSState)
    (c : ChapterRow) (bt tn : String) (env : ChapterEnv) (dry : Bool) :
    ((process_chapter db fs c bt tn env dry).2.2.countP Output.isProcessing) = 1 := by
  rcases env with ⟨pull, decode⟩
  cases dry <;> cases pull <;> cases decode <;>
    simp [process_chapter, pull_and_get_duration_in_ms, Output.isProcessing,
      List.countP_cons]

/-- The reconciler loop emits one processing header per visited chapter,
whatever each chapter's environment does. -/
theorem reconciler_fold_count (bookTitleOf tempNameOf : Nat → String)
    (envOf : Nat → ChapterEnv) (dry : Bool) :
    ∀ (todo db : List ChapterRow) (fs : FSState) (outs : List Output),
      ((todo.foldl (reconcilerStep bookTitleOf tempNameOf envOf dry)
          (db, fs, outs)).2.2.countP Output.isProcessing)
        = outs.countP Output.isProcessing + todo.length := by
  intro todo
  induction todo with
  | nil => intro db fs outs; simp
  | cons c rest ih =>
    intro db fs outs
    have hstep : reconcilerStep bookTitleOf tempNameOf envOf dry (db, fs, outs) c
        = ((process_chapter db fs c (bookTitleOf c.bookId) (tempNameOf c.id)
              (envOf c.id) dry).1,
           (process_chapter db fs c (bookTitleOf c.bookId) (tempNameOf c.id)
              (envOf c.id) dry).2.1,
           outs ++ (process_chapter db fs c (bookTitleOf c.bookId) (tempNameOf c.id)
              (envOf c.id) dry).2.2) := rfl
    rw [List.foldl_cons, hstep, ih]
    have hc := process_chapter_processing_count db fs c (bookTitleOf c.bookId)
      (tempNameOf c.id) (envOf c.id) dry
    simp only [List.countP_append, hc, List.length_cons]
    omega

/-- C8: the scoped temporary file of a reconciler pull is gone after the
helper returns, on the success path, the pull failure path and the decode
failure path alike; and a run of the reconciler loop visits every chapter
of the catalog, emitting its processing header, whatever mixture of
failures the per chapter environments produce, so one bad chapter never
aborts the scan. -/
theorem reconciler_error_isolation :
    (∀ (fs : FSState) (device_path temp : String) (env : ChapterEnv),
      temp ∉ (pull_and_get_duration_in_ms fs device_path temp env).1.tempFiles) ∧
    (∀ chapters bookTitleOf tempNameOf envOf dry,
      ((reconcilerRun chapters bookTitleOf tempNameOf envOf dry).2.2.countP
        Output.isProcessing) = chapters.length) := by
  constructor
  · intro fs device_path temp env
    simp [pull_and_get_duration_in_ms, List.mem_filter]
  · intro chapters bookTitleOf tempNameOf envOf dry
    rw [reconcilerRun, reconciler_fold_count]
    simp

/-- C10: reconciliation writes only the playTime and finishedPlaying
columns: in every branch of process_chapter and over a whole reconciler
run, the projection of every chapter row to its id, book, title, fileName,
lastPlayedPosition and lastPlayedTimestamp columns is unchanged. -/
theorem reconciler_update_frame :
    (∀ chapters fs c bt tn env dry,
      (process_chapter chapters fs c bt tn env dry).1.map chapterReconFrame
        = chapters.map chapterReconFrame) ∧
    (∀ chapters bookTitleOf tempNameOf envOf dry,
      (reconcilerRun chapters bookTitleOf tempNameOf envOf dry).1.map chapterReconFrame
        = chapters.map chapterReconFrame) := by
  have h1 : ∀ (chapters : List ChapterRow) (fs : FSState) (c : ChapterRow)
      (bt tn : String) (env : ChapterEnv) (dry : Bool),
      (process_chapter chapters fs c bt tn env dry).1.map chapterReconFrame
        = chapters.map chapterReconFrame := by
    intro chapters fs c bt tn env dry
    rcases env with ⟨pull, decode⟩
    cases dry
    · cases pull
      · cases decode
        · simp only [process_chapter, pull_and_get_duration_in_ms, if_neg
            Bool.false_ne_true, List.map_map]
          apply List.map_congr_left
          intro c2 _
          by_cases hc : c2.id = c.id <;> simp [chapterReconFrame, hc]
        · simp [process_chapter, pull_and_get_duration_in_ms]
        · simp [process_chapter, pull_and_get_duration_in_ms]
      · simp [process_chapter, pull_and_get_duration_in_ms]
      · simp [process_chapter, pull_and_get_duration_in_ms]
    · simp [process_chapter]
  have h2 : ∀ (bookTitleOf tempNameOf : Nat → String) (envOf : Nat → ChapterEnv)
      (dry : Bool) (todo : List ChapterRow),
      ∀ (db : List ChapterRow) (fs : FSState) (outs : List Output),
      ((todo.foldl (reconcilerStep bookTitleOf tempNameOf envOf dry)
          (db, fs, outs)).1).map chapterReconFrame
        = db.map chapterReconFrame := by
    intro bto tno eo dry todo
    induction todo with
    | nil => intro db fs outs; rfl
    | cons c rest ih =>
      intro db fs outs
      have hstep : reconcilerStep bto tno eo dry (db, fs, outs) c
          = ((process_chapter db fs c (bto c.bookId) (tno c.id) (eo c.id) dry).1,
             (process_chapter db fs c (bto c.bookId) (tno c.id) (eo c.id) dry).2.1,
             outs ++ (process_chapter db fs c (bto c.bookId) (tno c.id)
                (eo c.id) dry).2.2) := rfl
      rw [List.foldl_cons, hstep, ih]
      exact h1 db fs c (bto c.bookId) (tno c.id) (eo c.id) dry
  exact ⟨h1, fun chapters bto tno eo dry => h2 bto tno eo dry chapters chapters ⟨[]⟩ []⟩

/-- Witness for C8 at concrete inputs: after a failed pull of one chapter
the temporary file is gone. -/
theorem reconciler_error_isolation_witness :
    "tmp1" ∉ (pull_and_get_duration_in_ms ⟨[]⟩ "/d/f.mp3" "tmp1"
      ⟨.notFoundOnDevice, .ok 5⟩).1.tempFiles :=
  reconciler_error_isolation.1 ⟨[]⟩ "/d/f.mp3" "tmp1" ⟨.notFoundOnDevice, .ok 5⟩

end BookReader
